import Mathlib

/-!
Verification development for the pdf-processing command-line scripts
(`split_pdf.py`, `merge_pdfs.py`, `protect_pdf.py`, `add_watermark.py`).

The core of the repository is the page-range resolver
`parse_page_ranges(range_str, total_pages)` in `split_pdf.py`.  We embed it
shallowly: Python strings become `String` / `List Char`, Python `int` becomes
`Int`, the raised `ValueError`s become an explicit error type, and the
function returns `Except`.  The I/O-bound scripts (`merge_pdfs.py`,
`protect_pdf.py`, `add_watermark.py`) are embedded as pure functions over
abstract documents: the third-party pypdf/reportlab calls are modelled as
data (an abstract oracle for password checking, an `Option` load result per
merge input, a list of canvas operations for the watermark), while all
control flow of the scripts themselves is translated faithfully.
-/

/-- Models Python `str.split(sep)` for a single-character separator `sep`,
acting on the character list of the string.  Like Python, splitting the
empty string yields `[[]]` (one empty field), and separators at the ends
produce empty fields. -/
def pySplit (sep : Char) : List Char → List (List Char)
  | [] => [[]]
  | c :: rest =>
    let r := pySplit sep rest
    if c = sep then [] :: r
    else
      match r with
      | h :: t => (c :: h) :: t
      | [] => [[c]]

/-- Characters stripped by Python `int()` around a numeric literal
(ASCII whitespace; we do not model the remaining Unicode whitespace). -/
def isPyWhitespace (c : Char) : Bool :=
  c = ' ' || c = '\t' || c = '\n' || c = '\r' || c = '\x0b' || c = '\x0c'

/-- Strips leading and trailing whitespace, as Python `int()` does before
parsing a literal. -/
def pyStrip (cs : List Char) : List Char :=
  ((cs.dropWhile isPyWhitespace).reverse.dropWhile isPyWhitespace).reverse

/-- True when the last character of the list is an ASCII digit. -/
def lastIsDigit : List Char → Bool
  | [] => false
  | [c] => c.isDigit
  | _ :: c :: rest => lastIsDigit (c :: rest)

/-- True when no two consecutive characters are both underscores. -/
def noDoubleUnderscore : List Char → Bool
  | c :: d :: rest => !(c = '_' && d = '_') && noDoubleUnderscore (d :: rest)
  | _ => true

/-- Models the digit part accepted by Python `int()`: a non-empty run of
ASCII digits, with single underscores allowed only between digits. -/
def validDigits : List Char → Bool
  | [] => false
  | c :: rest =>
    c.isDigit && lastIsDigit (c :: rest) &&
    (c :: rest).all (fun d => d.isDigit || d = '_') &&
    noDoubleUnderscore (c :: rest)

/-- Numeric value of a digit run, ignoring underscores. -/
def digitsVal (cs : List Char) : Nat :=
  cs.foldl (fun a c => if c = '_' then a else 10 * a + (c.toNat - 48)) 0

/-- Models Python `int(s)` on the character list of `s` (restricted to ASCII):
optional surrounding whitespace, an optional single sign, then a digit run.
Returns `none` where Python raises `ValueError`. -/
def pyInt : List Char → Option Int
  | cs =>
    match pyStrip cs with
    | '+' :: rest => if validDigits rest then some (digitsVal rest : Int) else none
    | '-' :: rest => if validDigits rest then some (-(digitsVal rest : Int)) else none
    | rest => if validDigits rest then some (digitsVal rest : Int) else none

/-- The `ValueError`s that `parse_page_ranges` can raise.  Each constructor
carries exactly the data interpolated into the corresponding Python message:
`invalidLiteral s` is `int()` failing on literal `s`; `unpackMismatch k` is
`start, end = part.split(sep)` receiving `k` values instead of 2;
`pageRangeOutOfBounds s e t` and `pageOutOfBounds p t` are the two
explicitly raised out-of-bounds errors of `split_pdf.py`. -/
inductive ValueError where
  | invalidLiteral (literal : String)
  | unpackMismatch (count : Nat)
  | pageRangeOutOfBounds (start stop total : Int)
  | pageOutOfBounds (page total : Int)
  deriving DecidableEq, Repr

/-- True for the errors raised as "out of bounds" by `split_pdf.py`. -/
def isRangeErr : ValueError → Bool
  | .pageRangeOutOfBounds _ _ _ => true
  | .pageOutOfBounds _ _ => true
  | _ => false

/-- True for the errors raised by parsing itself (`int()` failure or tuple
unpack mismatch), before any bounds check. -/
def isParseErr : ValueError → Bool
  | .invalidLiteral _ => true
  | .unpackMismatch _ => true
  | _ => false

/-- The literal text embedded in the error message, when there is one: the
Python `int()` message quotes the offending literal, while the unpack and
out-of-bounds messages do not contain the token text. -/
def mentionedLiteral : ValueError → Option String
  | .invalidLiteral s => some s
  | _ => none

/-- Models Python `list(range(lo, hi + 1))` over `Int`: the integers from
`lo` to `hi` inclusive, empty when `hi < lo`. -/
def intRangeList (lo hi : Int) : List Int :=
  (List.range (hi + 1 - lo).toNat).map (fun (i : Nat) => lo + (i : Int))

/-- Processing of one comma-separated token in the loop body of
`parse_page_ranges`: a hyphenated token is unpacked into `start`/`end`,
both converted by `int()`, bounds-checked (`start < 1 or end > total_pages`)
and expanded to `range(start, end + 1)`; a plain token is converted by
`int()` and bounds-checked.  The accumulated pages list is threaded
through, and any raised `ValueError` aborts via `Except.error`. -/
def processToken (total_pages : Int) (pages : List Int) (part : List Char) :
    Except ValueError (List Int) :=
  if part.contains '-' then
    match pySplit '-' part with
    | [s, e] =>
      match pyInt s with
      | none => .error (.invalidLiteral ⟨s⟩)
      | some sv =>
        match pyInt e with
        | none => .error (.invalidLiteral ⟨e⟩)
        | some ev =>
          if sv < 1 ∨ ev > total_pages then
            .error (.pageRangeOutOfBounds sv ev total_pages)
          else
            .ok (pages ++ intRangeList sv ev)
    | parts => .error (.unpackMismatch parts.length)
  else
    match pyInt part with
    | none => .error (.invalidLiteral ⟨part⟩)
    | some page =>
      if page < 1 ∨ page > total_pages then
        .error (.pageOutOfBounds page total_pages)
      else
        .ok (pages ++ [page])

/-- Models Python `sorted(set(pages))`: the distinct values of `pages` in
ascending order. -/
def sorted_set (pages : List Int) : List Int :=
  List.insertionSort (fun a b => a ≤ b) pages.dedup

/-- Embedding of `parse_page_ranges(range_str, total_pages)` from
`split_pdf.py`: split on commas, process each token in order accumulating
page numbers (the first raised `ValueError` aborts), then return
`sorted(set(pages))`. -/
def parse_page_ranges (range_str : String) (total_pages : Int) :
    Except ValueError (List Int) :=
  match (pySplit ',' range_str.data).foldlM (processToken total_pages) [] with
  | .error e => .error e
  | .ok pages => .ok (sorted_set pages)

/-- The comma-separated tokens of a range expression, as `parse_page_ranges`
produces them with `range_str.split(',')`. -/
def exprTokens (expr : String) : List (List Char) :=
  pySplit ',' expr.data

/-- True when a token would take the code path of a well-formed token: a
hyphenated token that unpacks into exactly two operands both accepted by
`int()`, or a plain token accepted by `int()`. -/
def wellFormedToken (part : List Char) : Bool :=
  if part.contains '-' then
    match pySplit '-' part with
    | [s, e] => (pyInt s).isSome && (pyInt e).isSome
    | _ => false
  else (pyInt part).isSome

/-- True when a token parses but violates the bounds checks of
`parse_page_ranges`: a `start-end` token with `start < 1` or
`end > total_pages`, or a single integer `< 1` or `> total_pages`. -/
def tokenOutOfRange (total_pages : Int) (part : List Char) : Bool :=
  if part.contains '-' then
    match pySplit '-' part with
    | [s, e] =>
      match pyInt s, pyInt e with
      | some sv, some ev => decide (sv < 1) || decide (ev > total_pages)
      | _, _ => false
    | _ => false
  else
    match pyInt part with
    | some page => decide (page < 1) || decide (page > total_pages)
    | none => false

/-- True when some token of the expression is out of range for the given
page count. -/
def hasOutOfRangeToken (expr : String) (total_pages : Int) : Bool :=
  (exprTokens expr).any (tokenOutOfRange total_pages)

/-- True when every token of the expression is well-formed. -/
def allTokensWellFormed (expr : String) : Bool :=
  (exprTokens expr).all wellFormedToken

/-- True when some token of the expression is malformed. -/
def hasMalformedToken (expr : String) : Bool :=
  !(allTokensWellFormed expr)

/-- Embedding of the page-selection step of `split_pdf` (the
`if pages: ... else: ...` at lines 46-49 of `split_pdf.py`): Python
truthiness treats both `None` and the empty string as falsy, defaulting
the selection to `range(1, total_pages + 1)`. -/
def split_pdf_page_numbers (pages : Option String) (total_pages : Int) :
    Except ValueError (List Int) :=
  match pages with
  | some s =>
    if s.isEmpty then .ok (intRangeList 1 total_pages)
    else parse_page_ranges s total_pages
  | none => .ok (intRangeList 1 total_pages)

/-- An abstract page of a PDF document, identified by a tag; the scripts
only move pages between readers and writers, never inspect them. -/
structure PdfPage where
  tag : Nat
  deriving DecidableEq, Repr

/-- One merge input of `merge_pdfs.py`: its path, and the outcome of
`merger.append(path)` — `some pages` when pypdf loads the file, `none`
when it raises (corrupt or missing file). -/
structure MergeInput where
  path : String
  loaded : Option (List PdfPage)

/-- Embedding of `merge_pdfs(pdf_files, output_path)` from `merge_pdfs.py`:
each input is appended in argument order; a failing input is caught, a
warning naming it is printed, and the loop continues.  The result is the
pair (pages written to the output, paths warned about). -/
def merge_pdfs (pdf_files : List MergeInput) : List PdfPage × List String :=
  pdf_files.foldl
    (fun st f =>
      match f.loaded with
      | some pgs => (st.1 ++ pgs, st.2)
      | none => (st.1, st.2 ++ [f.path]))
    ([], [])

/-- Embedding of `main()` of `merge_pdfs.py`: the guard
`if args.output in args.inputs` runs before `merge_pdfs` is called, so
`.error 1` (modelling `sys.exit(1)`) is produced with no input read and
no output written. -/
def merge_main (output : String) (inputs : List MergeInput) :
    Except Nat (List PdfPage × List String) :=
  if output ∈ inputs.map (fun f => f.path) then .error 1
  else .ok (merge_pdfs inputs)

/-- An input document of `protect_pdf.py` as `decrypt_pdf` observes it:
its pages, the `is_encrypted` flag, and the pypdf `reader.decrypt`
outcome abstracted as an oracle from password to success flag. -/
structure EncryptedDoc where
  pages : List PdfPage
  is_encrypted : Bool
  password_ok : String → Bool

/-- Embedding of `decrypt_pdf(input_pdf, output_pdf, password)` from
`protect_pdf.py`.  `.ok pages` models reaching the final
`open(output_pdf, 'wb')` and writing the copied pages; `.error c` models
`sys.exit(c)`, which happens before the output file is opened, so the
filesystem state at the output path is unchanged.  An unencrypted input
is copied with a warning; an encrypted input is copied only when
`reader.decrypt(password)` succeeds. -/
def decrypt_pdf (reader : EncryptedDoc) (password : String) :
    Except Nat (List PdfPage) :=
  if reader.is_encrypted = false then
    .ok reader.pages
  else if reader.password_ok password = false then
    .error 1
  else
    .ok reader.pages

/-- The reportlab canvas calls `create_watermark` makes, recorded as data. -/
inductive CanvasOp where
  | setFont (font : String) (size : Int)
  | setFillGray (gray : Rat)
  | translate (x y : Int)
  | rotate (degrees : Int)
  | drawCentredString (x y : Int) (text : String)
  deriving DecidableEq, Repr

/-- Embedding of `create_watermark(text, opacity=0.5, rotation=45,
font_size=60)` from `add_watermark.py`: the sequence of canvas operations
drawn on the in-memory watermark page.  Opacity is modelled as a rational
(the float semantics are irrelevant to the claims checked here). -/
def create_watermark (text : String) (opacity : Rat) (rotation : Int)
    (font_size : Int) : List CanvasOp :=
  [ .setFont (r"Helvetica") font_size,
    .setFillGray opacity,
    .translate 300 400,
    .rotate rotation,
    .drawCentredString 0 0 text ]

/-- Embedding of `add_watermark(input_pdf, output_pdf, watermark_text,
opacity=0.5, rotation=45)`: it calls
`create_watermark(watermark_text, opacity, rotation)` with no `font_size`
argument, so the default `font_size=60` is always used.  The returned
operations are what is composited onto every page. -/
def add_watermark (watermark_text : String) (opacity : Rat)
    (rotation : Int) : List CanvasOp :=
  create_watermark watermark_text opacity rotation 60

/-- The parsed command-line arguments of `add_watermark.py`, including the
`--font-size` option (default 60). -/
structure WatermarkArgs where
  input : String
  output : String
  text : String
  opacity : Rat
  rotation : Int
  font_size : Int

/-- Embedding of `main()` of `add_watermark.py`: opacity is validated
(`not 0 <= args.opacity <= 1` exits with status 1), then
`add_watermark(args.input, args.output, args.text, args.opacity,
args.rotation)` runs — `args.font_size` is parsed but never forwarded. -/
def watermark_main (args : WatermarkArgs) : Except Nat (List CanvasOp) :=
  if ¬(0 ≤ args.opacity ∧ args.opacity ≤ 1) then .error 1
  else .ok (add_watermark args.text args.opacity args.rotation)

theorem mem_intRangeList {lo hi x : Int} :
    x ∈ intRangeList lo hi ↔ lo ≤ x ∧ x ≤ hi := by
  unfold intRangeList
  simp only [List.mem_map, List.mem_range]
  constructor
  · rintro ⟨i, hilt, rfl⟩
    omega
  · rintro ⟨h1, h2⟩
    exact ⟨(x - lo).toNat, by omega, by omega⟩

theorem intRangeList_eq_nil {lo hi : Int} (h : hi < lo) : intRangeList lo hi = [] := by
  unfold intRangeList
  have h0 : (hi + 1 - lo).toNat = 0 := by omega
  rw [h0]
  rfl

theorem intRangeList_sorted_lt (lo hi : Int) :
    (intRangeList lo hi).Sorted (fun a b => a < b) := by
  unfold intRangeList List.Sorted
  refine List.pairwise_map.2 ?_
  exact (List.pairwise_lt_range _).imp (fun h => by omega)

theorem processToken_ok_mem {n : Int} {acc acc' : List Int} {part : List Char}
    (h : processToken n acc part = .ok acc') :
    ∀ x ∈ acc', x ∈ acc ∨ (1 ≤ x ∧ x ≤ n) := by
  unfold processToken at h
  split at h
  · split at h
    · split at h
      · exact absurd h (by simp)
      · split at h
        · exact absurd h (by simp)
        · split at h
          · exact absurd h (by simp)
          · rename_i sv hs ev he hbound
            simp only [Except.ok.injEq] at h
            subst h
            intro x hx
            rcases List.mem_append.1 hx with hx | hx
            · exact Or.inl hx
            · right
              have hb := mem_intRangeList.1 hx
              push_neg at hbound
              omega
    · exact absurd h (by simp)
  · split at h
    · exact absurd h (by simp)
    · split at h
      · exact absurd h (by simp)
      · rename_i page hp hbound
        simp only [Except.ok.injEq] at h
        subst h
        intro x hx
        rcases List.mem_append.1 hx with hx | hx
        · exact Or.inl hx
        · right
          simp only [List.mem_singleton] at hx
          subst hx
          push_neg at hbound
          omega

theorem foldlM_processToken_ok_mem {n : Int} :
    ∀ (toks : List (List Char)) (acc res : List Int),
      toks.foldlM (processToken n) acc = .ok res →
      ∀ x ∈ res, x ∈ acc ∨ (1 ≤ x ∧ x ≤ n) := by
  intro toks
  induction toks with
  | nil =>
    intro acc res h x hx
    have h' : (Except.ok acc : Except ValueError (List Int)) = .ok res := h
    cases h'
    exact Or.inl hx
  | cons t ts ih =>
    intro acc res h x hx
    rw [List.foldlM_cons] at h
    cases hpt : processToken n acc t with
    | error e =>
      rw [hpt] at h
      exact absurd h (by simp [Bind.bind, Except.bind])
    | ok acc2 =>
      rw [hpt] at h
      have h' : ts.foldlM (processToken n) acc2 = .ok res := h
      rcases ih acc2 res h' x hx with h2 | h2
      · exact processToken_ok_mem hpt x h2
      · exact Or.inr h2

/-- Claim C1: for every range expression and page count `n ≥ 1` on which
`parse_page_ranges` succeeds, every integer of the result lies in `[1, n]`,
the result has no duplicates, and it is sorted ascending. -/
theorem C1_resolved_page_set_invariant
    (expr : String) (n : Int) (_hn : 1 ≤ n) (out : List Int)
    (h : parse_page_ranges expr n = .ok out) :
    (∀ x ∈ out, 1 ≤ x ∧ x ≤ n) ∧ out.Nodup ∧ out.Sorted (fun a b => a ≤ b) := by
  unfold parse_page_ranges at h
  split at h
  · exact absurd h (by simp)
  · rename_i pages hfold
    simp only [Except.ok.injEq] at h
    subst h
    unfold sorted_set
    have hmem : ∀ x ∈ sorted_set pages, x ∈ pages := by
      intro x hx
      unfold sorted_set at hx
      have h1 : x ∈ pages.dedup :=
        ((List.perm_insertionSort _ _).mem_iff).1 hx
      exact List.mem_dedup.1 h1
    refine ⟨?_, ?_, ?_⟩
    · intro x hx
      rcases foldlM_processToken_ok_mem _ _ _ hfold x (hmem x hx) with h2 | h2
      · exact absurd h2 (List.not_mem_nil x)
      · exact h2
    · exact ((List.perm_insertionSort _ _).nodup_iff).2 pages.nodup_dedup
    · exact List.sorted_insertionSort _ _

theorem C1_witness :
    (∀ x ∈ ([1, 2] : List Int), 1 ≤ x ∧ x ≤ 3) ∧
    ([1, 2] : List Int).Nodup ∧
    ([1, 2] : List Int).Sorted (fun a b => a ≤ b) :=
  C1_resolved_page_set_invariant (r"1-2") 3 (by decide) [1, 2] rfl

/-- Claim C2: resolving the expression "1-3,5,7-9" with page count 10
succeeds and returns exactly [1,2,3,5,7,8,9]: the comma-separated single
integers and inclusive ranges are accumulated, deduplicated and sorted. -/
theorem C2_example_expression :
    parse_page_ranges (r"1-3,5,7-9") 10 = .ok [1, 2, 3, 5, 7, 8, 9] := rfl

theorem processToken_ok_classify {n : Int} {acc acc' : List Int} {part : List Char}
    (h : processToken n acc part = .ok acc') :
    wellFormedToken part = true ∧ tokenOutOfRange n part = false := by
  by_cases hc : '-' ∈ part
  · rcases hsp : pySplit '-' part with _ | ⟨s, tl⟩
    · simp [processToken, hc, hsp] at h
    · rcases tl with _ | ⟨e, tl2⟩
      · simp [processToken, hc, hsp] at h
      · rcases tl2 with _ | ⟨c3, rest⟩
        · rcases hs : pyInt s with _ | sv
          · simp [processToken, hc, hsp, hs] at h
          · rcases he : pyInt e with _ | ev
            · simp [processToken, hc, hsp, hs, he] at h
            · by_cases hb : sv < 1 ∨ ev > n
              · simp [processToken, hc, hsp, hs, he, hb] at h
              · push_neg at hb
                constructor
                · simp [wellFormedToken, hc, hsp, hs, he]
                · simp [tokenOutOfRange, hc, hsp, hs, he]
                  omega
        · simp [processToken, hc, hsp] at h
  · rcases hp : pyInt part with _ | pv
    · simp [processToken, hc, hp] at h
    · by_cases hb : pv < 1 ∨ pv > n
      · simp [processToken, hc, hp, hb] at h
      · push_neg at hb
        constructor
        · simp [wellFormedToken, hc, hp]
        · simp [tokenOutOfRange, hc, hp]
          omega

theorem processToken_err_classify {n : Int} {acc : List Int} {e : ValueError}
    {part : List Char}
    (h : processToken n acc part = .error e) :
    (wellFormedToken part = true ∧ isRangeErr e = true ∧
      tokenOutOfRange n part = true) ∨
    (wellFormedToken part = false ∧ isParseErr e = true) := by
  by_cases hc : '-' ∈ part
  · rcases hsp : pySplit '-' part with _ | ⟨s, tl⟩
    · right
      simp [processToken, hc, hsp] at h
      simp [wellFormedToken, hc, hsp, ← h, isParseErr]
    · rcases tl with _ | ⟨e2, tl2⟩
      · right
        simp [processToken, hc, hsp] at h
        simp [wellFormedToken, hc, hsp, ← h, isParseErr]
      · rcases tl2 with _ | ⟨c3, rest⟩
        · rcases hs : pyInt s with _ | sv
          · right
            simp [processToken, hc, hsp, hs] at h
            simp [wellFormedToken, hc, hsp, hs, ← h, isParseErr]
          · rcases he : pyInt e2 with _ | ev
            · right
              simp [processToken, hc, hsp, hs, he] at h
              simp [wellFormedToken, hc, hsp, hs, he, ← h, isParseErr]
            · by_cases hb : sv < 1 ∨ ev > n
              · left
                simp [processToken, hc, hsp, hs, he, hb] at h
                refine ⟨by simp [wellFormedToken, hc, hsp, hs, he], ?_, ?_⟩
                · simp [← h, isRangeErr]
                · simp [tokenOutOfRange, hc, hsp, hs, he]
                  omega
              · simp [processToken, hc, hsp, hs, he, hb] at h
        · right
          simp [processToken, hc, hsp] at h
          simp [wellFormedToken, hc, hsp, ← h, isParseErr]
  · rcases hp : pyInt part with _ | pv
    · right
      simp [processToken, hc, hp] at h
      simp [wellFormedToken, hc, hp, ← h, isParseErr]
    · by_cases hb : pv < 1 ∨ pv > n
      · left
        simp [processToken, hc, hp, hb] at h
        refine ⟨by simp [wellFormedToken, hc, hp], ?_, ?_⟩
        · simp [← h, isRangeErr]
        · simp [tokenOutOfRange, hc, hp]
          omega
      · simp [processToken, hc, hp, hb] at h

theorem foldlM_ok_tokens_good {n : Int} :
    ∀ (toks : List (List Char)) (acc res : List Int),
      toks.foldlM (processToken n) acc = .ok res →
      ∀ t ∈ toks, wellFormedToken t = true ∧ tokenOutOfRange n t = false := by
  intro toks
  induction toks with
  | nil => intro acc res _ t ht; exact absurd ht (List.not_mem_nil t)
  | cons t0 ts ih =>
    intro acc res h t ht
    rw [List.foldlM_cons] at h
    cases hpt : processToken n acc t0 with
    | error e =>
      rw [hpt] at h
      exact absurd h (by simp [Bind.bind, Except.bind])
    | ok acc2 =>
      rw [hpt] at h
      have h' : ts.foldlM (processToken n) acc2 = .ok res := h
      rcases List.mem_cons.1 ht with rfl | ht'
      · exact processToken_ok_classify hpt
      · exact ih acc2 res h' t ht'

theorem foldlM_err_wf_range {n : Int} :
    ∀ (toks : List (List Char)) (acc : List Int) (e : ValueError),
      (∀ t ∈ toks, wellFormedToken t = true) →
      toks.foldlM (processToken n) acc = .error e →
      isRangeErr e = true := by
  intro toks
  induction toks with
  | nil =>
    intro acc e _ h
    have h' : (Except.ok acc : Except ValueError (List Int)) = .error e := h
    exact absurd h' (by simp)
  | cons t0 ts ih =>
    intro acc e hwf h
    rw [List.foldlM_cons] at h
    cases hpt : processToken n acc t0 with
    | error e0 =>
      rw [hpt] at h
      have h' : (Except.error e0 : Except ValueError (List Int)) = .error e := h
      cases h'
      rcases processToken_err_classify hpt with ⟨_, hr, _⟩ | ⟨hwf0, _⟩
      · exact hr
      · have := hwf t0 (List.mem_cons_self t0 ts)
        rw [this] at hwf0
        exact absurd hwf0 (by simp)
    | ok acc2 =>
      rw [hpt] at h
      exact ih acc2 e (fun t ht => hwf t (List.mem_cons_of_mem _ ht)) h

theorem foldlM_err_parse {n : Int} :
    ∀ (toks : List (List Char)) (acc : List Int) (e : ValueError),
      (∀ t ∈ toks, tokenOutOfRange n t = false) →
      toks.foldlM (processToken n) acc = .error e →
      isParseErr e = true := by
  intro toks
  induction toks with
  | nil =>
    intro acc e _ h
    have h' : (Except.ok acc : Except ValueError (List Int)) = .error e := h
    exact absurd h' (by simp)
  | cons t0 ts ih =>
    intro acc e hno h
    rw [List.foldlM_cons] at h
    cases hpt : processToken n acc t0 with
    | error e0 =>
      rw [hpt] at h
      have h' : (Except.error e0 : Except ValueError (List Int)) = .error e := h
      cases h'
      rcases processToken_err_classify hpt with ⟨_, _, hoor⟩ | ⟨_, hp⟩
      · have := hno t0 (List.mem_cons_self t0 ts)
        rw [this] at hoor
        exact absurd hoor (by simp)
      · exact hp
    | ok acc2 =>
      rw [hpt] at h
      exact ih acc2 e (fun t ht => hno t (List.mem_cons_of_mem _ ht)) h

theorem parse_error_iff {expr : String} {n : Int} {e : ValueError} :
    parse_page_ranges expr n = .error e ↔
      (exprTokens expr).foldlM (processToken n) [] = .error e := by
  unfold parse_page_ranges exprTokens
  cases h : (pySplit ',' expr.data).foldlM (processToken n) [] <;> simp [h]

theorem parse_ok_shape {expr : String} {n : Int} {out : List Int}
    (h : parse_page_ranges expr n = .ok out) :
    ∃ pages, (exprTokens expr).foldlM (processToken n) [] = .ok pages := by
  unfold parse_page_ranges at h
  rcases hf : (pySplit ',' expr.data).foldlM (processToken n) [] with e | pages
  · rw [hf] at h
    exact absurd h (by simp)
  · exact ⟨pages, hf⟩

/-- Claim C3 (counterexample): the expression "x,5" with page count 3
contains the single-integer token 5 with 5 > 3 (so `hasOutOfRangeToken`
holds), yet `parse_page_ranges` fails with the parse error for the earlier
malformed token "x", which is not an out-of-range error.  So the claim
"resolve fails with an out-of-range error whenever some token is out of
range" is false as stated. -/
theorem C3_counterexample :
    hasOutOfRangeToken (r"x,5") 3 = true ∧
    parse_page_ranges (r"x,5") 3 = .error (.invalidLiteral (r"x")) ∧
    isRangeErr (.invalidLiteral (r"x")) = false :=
  ⟨rfl, rfl, rfl⟩

/-- Claim C3 (amended): whenever some token is a single integer below 1 or
above the page count, or a start-end token with start below 1 or end above
the page count, `parse_page_ranges` fails (no result is produced); if in
addition every token is well-formed, the error is an out-of-range error;
in particular resolving "5" with page count 3 fails with the out-of-range
error naming page 5 and the bound 3. -/
theorem C3_amended_out_of_range :
    (∀ (expr : String) (n : Int), hasOutOfRangeToken expr n = true →
        (∃ e, parse_page_ranges expr n = .error e) ∧
        (allTokensWellFormed expr = true →
          ∀ e, parse_page_ranges expr n = .error e → isRangeErr e = true)) ∧
    parse_page_ranges (r"5") 3 = .error (.pageOutOfBounds 5 3) := by
  constructor
  · intro expr n hoor
    constructor
    · rcases hp : parse_page_ranges expr n with e | out
      · exact ⟨e, rfl⟩
      · obtain ⟨pages, hf⟩ := parse_ok_shape hp
        obtain ⟨t, ht, htoor⟩ := by
          simpa only [hasOutOfRangeToken, List.any_eq_true] using hoor
        have hgood := (foldlM_ok_tokens_good _ _ _ hf t ht).2
        rw [hgood] at htoor
        exact absurd htoor (by simp)
    · intro hwf e hpe
      have hf := parse_error_iff.1 hpe
      refine foldlM_err_wf_range _ _ _ ?_ hf
      intro t ht
      have := by simpa only [allTokensWellFormed, List.all_eq_true] using hwf
      exact this t ht
  · rfl

theorem C3_amended_witness :
    (∃ e, parse_page_ranges (r"0,2") 2 = .error e) ∧
    isRangeErr (.pageOutOfBounds 0 2) = true :=
  ⟨(C3_amended_out_of_range.1 (r"0,2") 2 rfl).1,
   (C3_amended_out_of_range.1 (r"0,2") 2 rfl).2 rfl (.pageOutOfBounds 0 2) rfl⟩

/-- Claim C4: a start-end token whose bounds pass the range check
(start at least 1, end at most the page count) but with start greater than
end contributes no page numbers and does not raise; in particular
resolving "2-1" with page count 5 succeeds with the empty sequence. -/
theorem C4_degenerate_range :
    (∀ (n : Int) (acc : List Int) (part s e : List Char) (sv ev : Int),
        '-' ∈ part →
        pySplit '-' part = [s, e] →
        pyInt s = some sv → pyInt e = some ev →
        1 ≤ sv → ev ≤ n → ev < sv →
        processToken n acc part = .ok acc) ∧
    parse_page_ranges (r"2-1") 5 = .ok [] := by
  constructor
  · intro n acc part s e sv ev hc hsp hs he h1 h2 h3
    unfold processToken
    simp only [hsp, hs, he]
    rw [if_pos (by simpa using hc), if_neg (by omega),
      intRangeList_eq_nil (by omega), List.append_nil]
  · rfl

theorem C4_witness :
    processToken 5 [] ['2', '-', '1'] = .ok [] :=
  C4_degenerate_range.1 5 [] ['2', '-', '1'] ['2'] ['1'] 2 1 (by decide)
    rfl rfl rfl (by decide) (by decide) (by decide)

/-- Claim C5 (counterexample): the token "1-2-3" is malformed (extra
operands), and `parse_page_ranges` raises the unpack `ValueError`, whose
message ("too many values to unpack (expected 2)") does not identify the
malformed token; moreover for "99,x" with page count 3 the malformed token
"x" is present but the failure is the out-of-range error for 99, not a
parse error.  So the claim as stated is false. -/
theorem C5_counterexample :
    parse_page_ranges (r"1-2-3") 10 = .error (.unpackMismatch 3) ∧
    mentionedLiteral (.unpackMismatch 3) = none ∧
    hasMalformedToken (r"99,x") = true ∧
    parse_page_ranges (r"99,x") 3 = .error (.pageOutOfBounds 99 3) ∧
    isParseErr (.pageOutOfBounds 99 3) = false :=
  ⟨rfl, rfl, rfl, rfl, rfl⟩

/-- Claim C5 (amended): an expression containing a malformed token always
fails — no partial or recovered result is produced; when moreover no token
is out of range (so the first failure is at a malformed token), the error
is a parse error: the invalid-literal error names the malformed text, while
the unpack error for a token with extra operands reports only the operand
count.  In particular "x" yields the invalid-literal error naming "x", and
"5-" yields the invalid-literal error naming the empty operand. -/
theorem C5_amended_malformed :
    (∀ (expr : String) (n : Int), hasMalformedToken expr = true →
        ∃ e, parse_page_ranges expr n = .error e) ∧
    (∀ (expr : String) (n : Int) (e : ValueError), hasMalformedToken expr = true →
        hasOutOfRangeToken expr n = false →
        parse_page_ranges expr n = .error e → isParseErr e = true) ∧
    parse_page_ranges (r"x") 5 = .error (.invalidLiteral (r"x")) ∧
    parse_page_ranges (r"5-") 9 = .error (.invalidLiteral (r"")) ∧
    mentionedLiteral (.invalidLiteral (r"x")) = some (r"x") := by
  refine ⟨?_, ?_, rfl, rfl, rfl⟩
  · intro expr n hmal
    rcases hp : parse_page_ranges expr n with e | out
    · exact ⟨e, rfl⟩
    · obtain ⟨pages, hf⟩ := parse_ok_shape hp
      have hall : allTokensWellFormed expr = true := by
        simp only [allTokensWellFormed, List.all_eq_true]
        intro t ht
        exact (foldlM_ok_tokens_good _ _ _ hf t ht).1
      rw [hasMalformedToken, hall] at hmal
      exact absurd hmal (by simp)
  · intro expr n e _ hno hpe
    have hf := parse_error_iff.1 hpe
    refine foldlM_err_parse _ _ _ ?_ hf
    intro t ht
    have := by simpa only [hasOutOfRangeToken, List.any_eq_false] using hno
    simpa using this t ht

theorem C5_amended_witness :
    (∃ e, parse_page_ranges (r"y") 7 = .error e) ∧
    isParseErr (.invalidLiteral (r"y")) = true :=
  ⟨C5_amended_malformed.1 (r"y") 7 rfl,
   C5_amended_malformed.2.1 (r"y") 7 (.invalidLiteral (r"y")) rfl rfl rfl⟩

/-- Claim C6: when no range expression is supplied, the selected page set
of the split operation is the full ascending sequence 1..pageCount: it is
exactly the in-bounds integers, strictly ascending, and for a document of
4 pages it is [1,2,3,4]. -/
theorem C6_default_full_range :
    (∀ n : Int, split_pdf_page_numbers none n = .ok (intRangeList 1 n) ∧
        (∀ x : Int, x ∈ intRangeList 1 n ↔ 1 ≤ x ∧ x ≤ n) ∧
        (intRangeList 1 n).Sorted (fun a b => a < b)) ∧
    split_pdf_page_numbers none 4 = .ok [1, 2, 3, 4] := by
  constructor
  · intro n
    exact ⟨rfl, fun x => mem_intRangeList, intRangeList_sorted_lt 1 n⟩
  · rfl

/-- Claim C7: running decrypt on an encrypted document with a wrong
password exits with status 1 (non-zero), and the output file is never
written: in the embedding, `.error 1` is produced by the `sys.exit(1)`
that runs before `open(output_pdf, 'wb')`, so the result is never `.ok`
and the filesystem state at the output path is unchanged. -/
theorem C7_decrypt_wrong_password :
    ∀ (doc : EncryptedDoc) (password : String),
      doc.is_encrypted = true →
      doc.password_ok password = false →
      decrypt_pdf doc password = .error 1 ∧
      ∀ pages, decrypt_pdf doc password ≠ .ok pages := by
  intro doc pw henc hpw
  have h : decrypt_pdf doc pw = .error 1 := by
    unfold decrypt_pdf
    rw [henc, hpw]
    simp
  refine ⟨h, fun pages hcontra => ?_⟩
  rw [h] at hcontra
  exact absurd hcontra (by simp)

theorem C7_witness :
    decrypt_pdf ⟨[⟨0⟩], true, fun p => p == r"secret"⟩ (r"wrong") = .error 1 ∧
    ∀ pages, decrypt_pdf ⟨[⟨0⟩], true, fun p => p == r"secret"⟩ (r"wrong") ≠
      .ok pages :=
  C7_decrypt_wrong_password _ _ rfl rfl

theorem merge_pdfs_fold (files : List MergeInput) :
    ∀ st : List PdfPage × List String,
      files.foldl
        (fun st f =>
          match f.loaded with
          | some pgs => (st.1 ++ pgs, st.2)
          | none => (st.1, st.2 ++ [f.path])) st =
      (st.1 ++ (files.filterMap (fun f => f.loaded)).flatten,
       st.2 ++ files.filterMap
          (fun f => if f.loaded.isNone then some f.path else none)) := by
  induction files with
  | nil => intro st; simp
  | cons f fs ih =>
    intro st
    rw [List.foldl_cons]
    rcases hl : f.loaded with _ | pgs <;>
      simp [hl, ih, List.filterMap_cons, List.append_assoc]

/-- Claim C8: merge is best-effort per input: the output contains exactly
the pages of the inputs that loaded, concatenated in argument order, and
there is one warning per failing input (identified by its path); merging
[a (valid), b (corrupt), c (valid)] yields a's and c's pages with the one
warning for b. -/
theorem C8_merge_best_effort :
    (∀ files : List MergeInput,
        (merge_pdfs files).1 = (files.filterMap (fun f => f.loaded)).flatten ∧
        (merge_pdfs files).2 =
          files.filterMap
            (fun f => if f.loaded.isNone then some f.path else none)) ∧
    merge_pdfs
        [⟨r"a.pdf", some [⟨0⟩, ⟨1⟩]⟩, ⟨r"b.pdf", none⟩, ⟨r"c.pdf", some [⟨2⟩]⟩] =
      ([⟨0⟩, ⟨1⟩, ⟨2⟩], [r"b.pdf"]) := by
  constructor
  · intro files
    unfold merge_pdfs
    rw [merge_pdfs_fold]
    simp
  · rfl

/-- Claim C9 (code-bug evidence): the `--font-size` option of
`add_watermark.py` is parsed but never forwarded: `main()` calls
`add_watermark` without `args.font_size`, and `add_watermark` calls
`create_watermark` without a `font_size` argument, so the watermark text
is always rendered at the default font size 60.  With `--font-size 30`
the rendered operations contain `setFont("Helvetica", 60)` and no
`setFont` with size 30, contradicting the claim that the configured font
size is used. -/
theorem C9_font_size_ignored :
    watermark_main ⟨r"input.pdf", r"output.pdf", r"DRAFT", 1/2, 45, 30⟩ =
      .ok (create_watermark (r"DRAFT") (1/2) 45 60) ∧
    CanvasOp.setFont (r"Helvetica") 60 ∈ add_watermark (r"DRAFT") (1/2) 45 ∧
    CanvasOp.setFont (r"Helvetica") 30 ∉ add_watermark (r"DRAFT") (1/2) 45 := by
  refine ⟨?_, ?_, ?_⟩
  · unfold watermark_main
    have hop : (0 : Rat) ≤ 1/2 ∧ (1/2 : Rat) ≤ 1 := by norm_num
    rw [if_neg (not_not_intro hop)]
    rfl
  · simp [add_watermark, create_watermark]
  · simp [add_watermark, create_watermark]

/-- Claim C10: when the merge output path equals one of the input paths,
`main()` of `merge_pdfs.py` exits with status 1 before `merge_pdfs` is
invoked: the result is `.error 1`, produced by the guard that runs before
any input is read or output written. -/
theorem C10_output_among_inputs_rejected :
    ∀ (output : String) (inputs : List MergeInput),
      output ∈ inputs.map (fun f => f.path) →
      merge_main output inputs = .error 1 := by
  intro out inputs h
  unfold merge_main
  rw [if_pos h]

theorem C10_witness :
    merge_main (r"a.pdf") [⟨r"a.pdf", some []⟩] = .error 1 :=
  C10_output_among_inputs_rejected _ _ (by simp)
